/-
Verification of the UrbanZen notification dispatch engine
(`internal/notification/service.go`) against its natural-language
specification.

The Go service is shallowly embedded as pure Lean functions:

* Each channel sender (`NotificationChannel`) is modelled by a
  `ChannelSvc` record holding the result of `IsAvailable()` and whether
  `Send` returns without error (`sendOk`).  `Service.channels`
  (a `map[string]NotificationChannel`) is a partial map
  `String → Option ChannelSvc`.
* The observable side effects of one notification's processing are
  recorded as a list of `Event`s, in program order: `store st` for the
  `INSERT INTO notifications ... status = st` of `storeNotification`,
  `send ch` for a call to `svc.Send`, `upsert ch st` for
  `updateDeliveryStatus(id, ch, st)`, and `setStatus st` for
  `updateNotificationStatus(id, st)`.  All events belong to the single
  notification being processed, so the notification id is left implicit.
* The user-preference lookup (`getUserNotificationPreferences`) either
  fails (`none`) or yields the preference map, modelled as an
  association list `List (String × Bool)` (a Go `map[string]bool`;
  Go map iteration order is unspecified, so theorems about the regular
  path hold for every list order).
* Timestamps are `Int` (seconds); SQL `NOW() - INTERVAL '5 minutes'`
  becomes `now - 300` and `NOW() - INTERVAL '24 hours'` becomes
  `now - 86400`.
-/
import Mathlib

set_option autoImplicit false

namespace UrbanZen

/-- Result of the two-method channel contract: `IsAvailable()` and
whether `Send` succeeds (`Send` returning a non-nil error, or timing
out, is `sendOk = false`). -/
structure ChannelSvc where
  isAvailable : Bool
  sendOk : Bool
deriving DecidableEq

/-- `Service.channels : map[string]NotificationChannel`; a name absent
from the map yields `none` (the `exists` test in the Go code). -/
def Registry : Type := String → Option ChannelSvc

/-- `models.Notification` (the fields read by the dispatch code:
`ID, UserID, Type, Title, Message, Priority, Channels, ScheduledAt`).
`scheduledAt` is `*time.Time`, hence an `Option`. -/
structure Notification where
  id : String
  userId : String
  type : String
  title : String
  message : String
  priority : String
  channels : List String
  scheduledAt : Option Int
deriving DecidableEq

/-- One observable side effect of processing a single notification. -/
inductive Event where
  | store (status : String)
  | send (channel : String)
  | upsert (channel : String) (status : String)
  | setStatus (status : String)
deriving DecidableEq

/-- `reg ch` exists and reports available (a channel absent from the
registry is treated as unavailable). -/
def availableIn (reg : Registry) (ch : String) : Bool :=
  match reg ch with
  | some svc => svc.isAvailable
  | none => false

/-- The channel is registered, available, and its `Send` succeeds. -/
def sendOkIn (reg : Registry) (ch : String) : Bool :=
  match reg ch with
  | some svc => svc.isAvailable && svc.sendOk
  | none => false

/-- Body of the emergency fan-out loop for one channel name:
`if svc, exists := s.channels[channel]; exists && svc.IsAvailable()`
then `Send`; on success `updateDeliveryStatus(id, ch, "delivered")`,
on error only a log line (no upsert). -/
def attemptBroadcast (reg : Registry) (ch : String) : List Event :=
  match reg ch with
  | some svc =>
      if svc.isAvailable then
        Event.send ch ::
          (if svc.sendOk then [Event.upsert ch "delivered"] else [])
      else []
  | none => []

/-- The `for _, channel := range channels` loop of
`processEmergencyNotification` over a list of channel names. -/
def broadcastAll (reg : Registry) : List String → List Event
  | [] => []
  | ch :: rest => attemptBroadcast reg ch ++ broadcastAll reg rest

/-- `processEmergencyNotification`: broadcast to
`channels := []string{"push", "sms", "email"}`.  The Go code launches
one goroutine per channel; the trace records the attempts in loop
order. -/
def processEmergencyNotification (reg : Registry) : List Event :=
  broadcastAll reg ["push", "sms", "email"]

/-- The `for _, channel := range preferredChannels` loop of
`processHighPriorityNotification`: skip unregistered/unavailable
channels; on send error log and `continue`; on success upsert
`delivered` and `return`.  Returns the events together with whether the
loop returned early (a send succeeded). -/
def tryInOrder (reg : Registry) : List String → List Event × Bool
  | [] => ([], false)
  | ch :: rest =>
      match reg ch with
      | some svc =>
          if svc.isAvailable then
            if svc.sendOk then
              ([Event.send ch, Event.upsert ch "delivered"], true)
            else
              let r := tryInOrder reg rest
              (Event.send ch :: r.1, r.2)
          else tryInOrder reg rest
      | none => tryInOrder reg rest

/-- `processHighPriorityNotification`: try `["push", "sms"]` in order;
if no send succeeded, fall back to email (if registered and available):
send, upsert `delivered` on success, only log on error. -/
def processHighPriorityNotification (reg : Registry) : List Event :=
  let r := tryInOrder reg ["push", "sms"]
  if r.2 then r.1
  else
    r.1 ++
      (match reg "email" with
       | some svc =>
           if svc.isAvailable then
             Event.send "email" ::
               (if svc.sendOk then [Event.upsert "email" "delivered"] else [])
           else []
       | none => [])

/-- Body of the regular-path loop for one `(channel, enabled)` pair:
disabled channels are skipped; enabled ones are sent if registered and
available, and the outcome is always upserted (`delivered` or
`failed`). -/
def attemptPreferred (reg : Registry) (p : String × Bool) : List Event :=
  if p.2 then
    match reg p.1 with
    | some svc =>
        if svc.isAvailable then
          [Event.send p.1,
           Event.upsert p.1 (if svc.sendOk then "delivered" else "failed")]
        else []
    | none => []
  else []

/-- The `for channel, enabled := range userPrefs` loop of
`processRegularNotification`. -/
def sendPreferred (reg : Registry) : List (String × Bool) → List Event
  | [] => []
  | p :: rest => attemptPreferred reg p ++ sendPreferred reg rest

/-- `processRegularNotification`: resolve user preferences; if the
lookup failed (`none`), default to `map[string]bool{"email": true}`;
then attempt every enabled-and-available channel. -/
def processRegularNotification (reg : Registry)
    (prefs : Option (List (String × Bool))) : List Event :=
  sendPreferred reg (prefs.getD [("email", true)])

/-- `validateNotification`: returns the first error for an empty
`UserID`, `Title`, `Message` or `Type`; `Priority` is not checked. -/
def validateNotification (n : Notification) : Option String :=
  if n.userId = "" then some "user ID is required"
  else if n.title = "" then some "title is required"
  else if n.message = "" then some "message is required"
  else if n.type = "" then some "type is required"
  else none

/-- `processNotificationMessage` (after a successful unmarshal):
validate (on error only log, no events); `storeNotification` persists
the row with status `"pending"`; then dispatch on `notification.Priority`
with `default:` falling through to the regular path.  `scheduledAt` is
not consulted. -/
def processNotificationMessage (reg : Registry)
    (prefs : Option (List (String × Bool))) (n : Notification) :
    List Event :=
  match validateNotification n with
  | some _ => []
  | none =>
      Event.store "pending" ::
        (match n.priority with
         | "emergency" => processEmergencyNotification reg
         | "high" => processHighPriorityNotification reg
         | _ => processRegularNotification reg prefs)

/-- Per-row body of `processScheduledNotifications`: dispatch on
priority exactly as the ingest path does, then
`updateNotificationStatus(id, "processing")` — the status update comes
after the channel attempts. -/
def processScheduledRow (reg : Registry)
    (prefs : Option (List (String × Bool))) (n : Notification) :
    List Event :=
  (match n.priority with
   | "emergency" => processEmergencyNotification reg
   | "high" => processHighPriorityNotification reg
   | _ => processRegularNotification reg prefs) ++
    [Event.setStatus "processing"]

/-- Number of `send ch` events in a trace. -/
def countSends (evs : List Event) (ch : String) : Nat :=
  evs.countP fun e =>
    match e with
    | Event.send c => c == ch
    | _ => false

/-- Number of `upsert ch _` events (any status) in a trace. -/
def countUpserts (evs : List Event) (ch : String) : Nat :=
  evs.countP fun e =>
    match e with
    | Event.upsert c _ => c == ch
    | _ => false

/-- Number of `upsert ch st` events in a trace. -/
def countUpsertsWith (evs : List Event) (ch st : String) : Nat :=
  evs.countP fun e =>
    match e with
    | Event.upsert c s => c == ch && s == st
    | _ => false

/-- Did the event write the notification's own status column
(`storeNotification` or `updateNotificationStatus`)? -/
def isStatusEvent : Event → Bool
  | Event.store _ => true
  | Event.setStatus _ => true
  | _ => false

/-- One step of replaying a trace against the notification's `status`
column. -/
def statusStep (acc : Option String) (e : Event) : Option String :=
  match e with
  | Event.store s => some s
  | Event.setStatus s => some s
  | _ => acc

/-- The notification's `status` column after replaying a trace
(`none` = never written). -/
def finalStatus (evs : List Event) : Option String :=
  evs.foldl statusStep none

/-- The channels passed to `Send`, in trace order. -/
def sendsOf (evs : List Event) : List String :=
  evs.filterMap fun e =>
    match e with
    | Event.send c => some c
    | _ => none

/-! ### Basic lemmas about the attempt primitives -/

theorem sendOkIn_false_of_unavail {reg : Registry} {ch : String}
    (h : availableIn reg ch = false) : sendOkIn reg ch = false := by
  unfold availableIn at h
  rcases hr : reg ch with _ | svc
  · simp [sendOkIn, hr]
  · rw [hr] at h
    simp at h
    simp [sendOkIn, hr, h]

theorem attemptBroadcast_unavail {reg : Registry} {ch : String}
    (h : availableIn reg ch = false) : attemptBroadcast reg ch = [] := by
  unfold availableIn at h
  rcases hr : reg ch with _ | svc
  · simp [attemptBroadcast, hr]
  · rw [hr] at h
    simp at h
    simp [attemptBroadcast, hr, h]

theorem attemptBroadcast_ok {reg : Registry} {ch : String}
    (h : sendOkIn reg ch = true) :
    attemptBroadcast reg ch = [Event.send ch, Event.upsert ch "delivered"] := by
  unfold sendOkIn at h
  rcases hr : reg ch with _ | svc
  · rw [hr] at h
    exact absurd h (by simp)
  · rw [hr] at h
    simp at h
    simp [attemptBroadcast, hr, h.1, h.2]

theorem attemptBroadcast_fail {reg : Registry} {ch : String}
    (ha : availableIn reg ch = true) (ho : sendOkIn reg ch = false) :
    attemptBroadcast reg ch = [Event.send ch] := by
  unfold availableIn at ha
  unfold sendOkIn at ho
  rcases hr : reg ch with _ | svc
  · rw [hr] at ha
    exact absurd ha (by simp)
  · rw [hr] at ha ho
    simp at ha
    simp [ha] at ho
    simp [attemptBroadcast, hr, ha, ho]

theorem tryInOrder_cons_unavail {reg : Registry} {ch : String}
    (rest : List String) (h : availableIn reg ch = false) :
    tryInOrder reg (ch :: rest) = tryInOrder reg rest := by
  unfold availableIn at h
  rcases hr : reg ch with _ | svc
  · simp [tryInOrder, hr]
  · rw [hr] at h
    simp at h
    simp [tryInOrder, hr, h]

theorem tryInOrder_cons_ok {reg : Registry} {ch : String}
    (rest : List String) (h : sendOkIn reg ch = true) :
    tryInOrder reg (ch :: rest) =
      ([Event.send ch, Event.upsert ch "delivered"], true) := by
  unfold sendOkIn at h
  rcases hr : reg ch with _ | svc
  · rw [hr] at h
    exact absurd h (by simp)
  · rw [hr] at h
    simp at h
    simp [tryInOrder, hr, h.1, h.2]

theorem tryInOrder_cons_fail {reg : Registry} {ch : String}
    (rest : List String) (ha : availableIn reg ch = true)
    (ho : sendOkIn reg ch = false) :
    tryInOrder reg (ch :: rest) =
      (Event.send ch :: (tryInOrder reg rest).1, (tryInOrder reg rest).2) := by
  unfold availableIn at ha
  unfold sendOkIn at ho
  rcases hr : reg ch with _ | svc
  · rw [hr] at ha
    exact absurd ha (by simp)
  · rw [hr] at ha ho
    simp at ha
    simp [ha] at ho
    simp [tryInOrder, hr, ha, ho]

theorem countSends_append (a b : List Event) (ch : String) :
    countSends (a ++ b) ch = countSends a ch + countSends b ch :=
  List.countP_append _ _ _

theorem countUpserts_append (a b : List Event) (ch : String) :
    countUpserts (a ++ b) ch = countUpserts a ch + countUpserts b ch :=
  List.countP_append _ _ _

theorem countUpsertsWith_append (a b : List Event) (ch st : String) :
    countUpsertsWith (a ++ b) ch st =
      countUpsertsWith a ch st + countUpsertsWith b ch st :=
  List.countP_append _ _ _


theorem countSends_nil (ch : String) : countSends [] ch = 0 := rfl

theorem countSends_attemptBroadcast (reg : Registry) (c ch : String) :
    countSends (attemptBroadcast reg c) ch =
      if ch = c ∧ availableIn reg c = true then 1 else 0 := by
  cases ha : availableIn reg c
  · rw [attemptBroadcast_unavail ha]
    simp [countSends, ha]
  · cases ho : sendOkIn reg c
    · rw [attemptBroadcast_fail ha ho]
      by_cases hc : ch = c
      · simp [countSends, hc]
      · simp [countSends, hc]
        intro hcc
        exact hc hcc.symm
    · rw [attemptBroadcast_ok ho]
      by_cases hc : ch = c
      · simp [countSends, hc]
      · simp [countSends, hc]
        intro hcc
        exact hc hcc.symm

theorem processEmergency_eq (reg : Registry) :
    processEmergencyNotification reg =
      attemptBroadcast reg "push" ++
        (attemptBroadcast reg "sms" ++ (attemptBroadcast reg "email" ++ [])) :=
  rfl

/-- C4: for `priority = emergency`, every channel among
{push, sms, email} that is registered and available receives exactly one
send attempt, no other channel is attempted, and the resolved user
preferences have no effect on the processing trace. -/
theorem emergency_broadcast_every_available_once (reg : Registry)
    (_h : availableIn reg "push" = true ∨ availableIn reg "sms" = true ∨
         availableIn reg "email" = true) :
    (∀ ch : String,
      countSends (processEmergencyNotification reg) ch =
        if (ch = "push" ∨ ch = "sms" ∨ ch = "email") ∧ availableIn reg ch = true
        then 1 else 0)
    ∧ ∀ (prefs prefs' : Option (List (String × Bool))) (n : Notification),
        n.priority = "emergency" →
        processNotificationMessage reg prefs n =
          processNotificationMessage reg prefs' n := by
  constructor
  · intro ch
    rw [processEmergency_eq, countSends_append, countSends_append,
      countSends_append, countSends_attemptBroadcast,
      countSends_attemptBroadcast, countSends_attemptBroadcast,
      countSends_nil]
    by_cases h1 : ch = "push" <;> by_cases h2 : ch = "sms" <;>
      by_cases h3 : ch = "email" <;> simp_all
  · intro prefs prefs' n hpr
    cases hv : validateNotification n <;>
      simp [processNotificationMessage, hv, hpr]

/-- Concrete instantiation of `emergency_broadcast_every_available_once`:
all three channels registered, available, sends succeeding. -/
def regAllOk : Registry := fun ch =>
  if ch = "push" ∨ ch = "sms" ∨ ch = "email" then some ⟨true, true⟩ else none

theorem emergency_broadcast_every_available_once_witness :
    (availableIn regAllOk "push" = true ∨ availableIn regAllOk "sms" = true ∨
     availableIn regAllOk "email" = true)
    ∧ ((∀ ch : String,
        countSends (processEmergencyNotification regAllOk) ch =
          if (ch = "push" ∨ ch = "sms" ∨ ch = "email") ∧
             availableIn regAllOk ch = true
          then 1 else 0)
      ∧ ∀ (prefs prefs' : Option (List (String × Bool))) (n : Notification),
          n.priority = "emergency" →
          processNotificationMessage regAllOk prefs n =
            processNotificationMessage regAllOk prefs' n) :=
  ⟨Or.inl (by decide),
   emergency_broadcast_every_available_once regAllOk (Or.inl (by decide))⟩
/-- C5: high-priority routing — push first when available, sms next
only if push did not succeed, email exactly once as final fallback only
when neither push nor sms succeeded and email is available; a push
success short-circuits everything else. -/
theorem high_priority_fallback_chain (reg : Registry) :
    (availableIn reg "push" = true →
      (sendsOf (processHighPriorityNotification reg)).head? = some "push")
    ∧ countSends (processHighPriorityNotification reg) "push" =
        (if availableIn reg "push" = true then 1 else 0)
    ∧ countSends (processHighPriorityNotification reg) "sms" =
        (if sendOkIn reg "push" = false ∧ availableIn reg "sms" = true
         then 1 else 0)
    ∧ countSends (processHighPriorityNotification reg) "email" =
        (if sendOkIn reg "push" = false ∧ sendOkIn reg "sms" = false ∧
            availableIn reg "email" = true
         then 1 else 0) := by
  rcases hp : reg "push" with _ | ⟨_ | _, _ | _⟩ <;>
    rcases hs : reg "sms" with _ | ⟨_ | _, _ | _⟩ <;>
      rcases he : reg "email" with _ | ⟨_ | _, _ | _⟩ <;>
        simp_all [processHighPriorityNotification, tryInOrder, availableIn,
          sendOkIn, countSends, sendsOf]
theorem high_priority_fallback_chain_witness :
    (availableIn regAllOk "push" = true →
      (sendsOf (processHighPriorityNotification regAllOk)).head? = some "push")
    ∧ countSends (processHighPriorityNotification regAllOk) "push" =
        (if availableIn regAllOk "push" = true then 1 else 0)
    ∧ countSends (processHighPriorityNotification regAllOk) "sms" =
        (if sendOkIn regAllOk "push" = false ∧ availableIn regAllOk "sms" = true
         then 1 else 0)
    ∧ countSends (processHighPriorityNotification regAllOk) "email" =
        (if sendOkIn regAllOk "push" = false ∧ sendOkIn regAllOk "sms" = false ∧
            availableIn regAllOk "email" = true
         then 1 else 0) :=
  high_priority_fallback_chain regAllOk

theorem countSends_attemptPreferred (reg : Registry) (p : String × Bool)
    (ch : String) :
    countSends (attemptPreferred reg p) ch =
      if p.1 = ch ∧ p.2 = true ∧ availableIn reg p.1 = true then 1 else 0 := by
  rcases p with ⟨c, b⟩
  cases b
  · simp [attemptPreferred, countSends]
  · rcases hr : reg c with _ | ⟨_ | _, _ | _⟩ <;>
      by_cases hc : c = ch <;>
        simp_all [attemptPreferred, availableIn, countSends]

theorem countSends_sendPreferred (reg : Registry)
    (l : List (String × Bool)) (ch : String) :
    countSends (sendPreferred reg l) ch =
      l.countP fun p => p.1 == ch && p.2 && availableIn reg p.1 := by
  induction l with
  | nil => simp [sendPreferred, countSends]
  | cons p rest ih =>
      rw [sendPreferred, countSends_append, countSends_attemptPreferred, ih,
        List.countP_cons]
      by_cases h1 : p.1 = ch <;> by_cases h2 : p.2 = true <;>
        by_cases h3 : availableIn reg p.1 = true <;>
          simp [h1, h2, h3] <;> omega

theorem key_unique {l : List (String × Bool)}
    (hnd : (l.map Prod.fst).Nodup) {ch : String} {b b' : Bool}
    (h1 : (ch, b) ∈ l) (h2 : (ch, b') ∈ l) : b = b' := by
  induction l with
  | nil => simp at h1
  | cons q rest ih =>
      rw [List.map_cons, List.nodup_cons] at hnd
      rcases List.mem_cons.mp h1 with hq1 | hr1 <;>
        rcases List.mem_cons.mp h2 with hq2 | hr2
      · have h := hq1.trans hq2.symm
        injection h with hfst hsnd
      · exfalso
        have hc : ch ∈ List.map Prod.fst rest :=
          List.mem_map_of_mem Prod.fst hr2
        have hq : q.1 = ch := (congrArg Prod.fst hq1).symm
        exact hnd.1 (by rw [hq]; exact hc)
      · exfalso
        have hc : ch ∈ List.map Prod.fst rest :=
          List.mem_map_of_mem Prod.fst hr1
        have hq : q.1 = ch := (congrArg Prod.fst hq2).symm
        exact hnd.1 (by rw [hq]; exact hc)
      · exact ih hnd.2 hr1 hr2

theorem countP_sendKey (reg : Registry) (l : List (String × Bool))
    (ch : String) (hnd : (l.map Prod.fst).Nodup) :
    (l.countP fun p => p.1 == ch && p.2 && availableIn reg p.1) =
      if (ch, true) ∈ l ∧ availableIn reg ch = true then 1 else 0 := by
  induction l with
  | nil => simp
  | cons q rest ih =>
      rw [List.map_cons, List.nodup_cons] at hnd
      rw [List.countP_cons, ih hnd.2]
      by_cases h1 : q.1 = ch
      · have hnr : (ch, true) ∉ rest := by
          intro hmem
          have hc : ch ∈ List.map Prod.fst rest :=
            List.mem_map_of_mem Prod.fst hmem
          exact hnd.1 (by rw [h1]; exact hc)
        have hq : ((ch, true) ∈ q :: rest) ↔ q.2 = true := by
          rcases q with ⟨c, b⟩
          simp only at h1
          subst h1
          cases b <;> simp [hnr, List.mem_cons]
        cases hb : q.2 <;> cases hav : availableIn reg ch <;>
          simp_all [h1]
      · have hne : ((ch, true) ∈ q :: rest) ↔ ((ch, true) ∈ rest) := by
          constructor
          · intro hmem
            rcases List.mem_cons.mp hmem with hq | hr
            · exact absurd (congrArg Prod.fst hq).symm h1
            · exact hr
          · exact fun hr => List.mem_cons_of_mem _ hr
        have hpq : (q.1 == ch && q.2 && availableIn reg q.1) = false := by
          simp [h1]
        simp [hpq, hne]
theorem no_status_attemptPreferred {reg : Registry} {p : String × Bool}
    {e : Event} (h : e ∈ attemptPreferred reg p) : isStatusEvent e = false := by
  rcases p with ⟨c, b⟩
  cases b
  · simp [attemptPreferred] at h
  · rcases hr : reg c with _ | svc
    · simp [attemptPreferred, hr] at h
    · cases ha : svc.isAvailable
      · simp [attemptPreferred, hr, ha] at h
      · simp [attemptPreferred, hr, ha] at h
        rcases h with h | h <;> subst h <;> rfl

theorem no_status_sendPreferred {reg : Registry}
    {l : List (String × Bool)} {e : Event}
    (h : e ∈ sendPreferred reg l) : isStatusEvent e = false := by
  induction l with
  | nil => simp [sendPreferred] at h
  | cons p rest ih =>
      rw [sendPreferred] at h
      rcases List.mem_append.mp h with h | h
      · exact no_status_attemptPreferred h
      · exact ih h

theorem no_status_attemptBroadcast {reg : Registry} {ch : String}
    {e : Event} (h : e ∈ attemptBroadcast reg ch) :
    isStatusEvent e = false := by
  rcases hr : reg ch with _ | svc
  · simp [attemptBroadcast, hr] at h
  · cases ha : svc.isAvailable
    · simp [attemptBroadcast, hr, ha] at h
    · cases ho : svc.sendOk <;> simp [attemptBroadcast, hr, ha, ho] at h
      · subst h; rfl
      · rcases h with h | h <;> subst h <;> rfl

theorem no_status_broadcastAll {reg : Registry} {e : Event} :
    ∀ l : List String, e ∈ broadcastAll reg l → isStatusEvent e = false := by
  intro l
  induction l with
  | nil => intro h; simp [broadcastAll] at h
  | cons ch rest ih =>
      intro h
      rw [broadcastAll] at h
      rcases List.mem_append.mp h with h | h
      · exact no_status_attemptBroadcast h
      · exact ih h

theorem no_status_tryInOrder {reg : Registry} {e : Event} :
    ∀ l : List String, e ∈ (tryInOrder reg l).1 → isStatusEvent e = false := by
  intro l
  induction l with
  | nil => intro h; simp [tryInOrder] at h
  | cons ch rest ih =>
      intro h
      cases ha : availableIn reg ch
      · rw [tryInOrder_cons_unavail rest ha] at h
        exact ih h
      · cases ho : sendOkIn reg ch
        · rw [tryInOrder_cons_fail rest ha ho] at h
          rcases List.mem_cons.mp h with h | h
          · subst h; rfl
          · exact ih h
        · rw [tryInOrder_cons_ok rest ho] at h
          simp at h
          rcases h with h | h <;> subst h <;> rfl

theorem processHigh_eq (reg : Registry) :
    processHighPriorityNotification reg =
      (if (tryInOrder reg ["push", "sms"]).2
       then (tryInOrder reg ["push", "sms"]).1
       else (tryInOrder reg ["push", "sms"]).1 ++ attemptBroadcast reg "email") :=
  rfl

theorem no_status_processHigh {reg : Registry} {e : Event}
    (h : e ∈ processHighPriorityNotification reg) :
    isStatusEvent e = false := by
  rw [processHigh_eq] at h
  cases hb : (tryInOrder reg ["push", "sms"]).2 <;> rw [hb] at h <;> simp at h
  · rcases h with h | h
    · exact no_status_tryInOrder _ h
    · exact no_status_attemptBroadcast h
  · exact no_status_tryInOrder _ h

theorem foldl_statusStep_const (evs : List Event) (acc : Option String)
    (h : ∀ e ∈ evs, isStatusEvent e = false) :
    evs.foldl statusStep acc = acc := by
  induction evs generalizing acc with
  | nil => rfl
  | cons e rest ih =>
      rw [List.foldl_cons]
      have he := h e (List.mem_cons_self e rest)
      have hstep : statusStep acc e = acc := by
        cases e <;> simp_all [statusStep, isStatusEvent]
      rw [hstep]
      exact ih acc fun x hx => h x (List.mem_cons_of_mem e hx)

/-- C6: the regular (normal-priority) path attempts exactly once every
channel enabled in the resolved preference map that is registered and
available, never attempts a disabled channel, resolves a failed
preference lookup to exactly `{email: true}`, and never writes the
notification's own status (in particular never marks it failed). -/
theorem regular_path_respects_preferences (reg : Registry)
    (prefs : List (String × Bool)) (hnd : (prefs.map Prod.fst).Nodup) :
    (∀ ch : String, (ch, true) ∈ prefs → availableIn reg ch = true →
      countSends (processRegularNotification reg (some prefs)) ch = 1)
    ∧ (∀ ch : String, (ch, false) ∈ prefs →
      countSends (processRegularNotification reg (some prefs)) ch = 0)
    ∧ processRegularNotification reg none = sendPreferred reg [("email", true)]
    ∧ (∀ (po : Option (List (String × Bool))) (e : Event),
        e ∈ processRegularNotification reg po → isStatusEvent e = false) := by
  have hsome : processRegularNotification reg (some prefs) =
      sendPreferred reg prefs := rfl
  refine ⟨?_, ?_, rfl, ?_⟩
  · intro ch hmem hav
    rw [hsome, countSends_sendPreferred, countP_sendKey reg prefs ch hnd]
    simp [hmem, hav]
  · intro ch hmem
    have hne : (ch, true) ∉ prefs := by
      intro hmem'
      have := key_unique hnd hmem' hmem
      simp at this
    rw [hsome, countSends_sendPreferred, countP_sendKey reg prefs ch hnd]
    simp [hne]
  · intro po e he
    exact no_status_sendPreferred he

/-- Concrete preference map for the witness: email enabled, sms
disabled. -/
def prefsW : List (String × Bool) := [("email", true), ("sms", false)]

theorem regular_path_respects_preferences_witness :
    ((prefsW.map Prod.fst).Nodup)
    ∧ ((∀ ch : String, (ch, true) ∈ prefsW → availableIn regAllOk ch = true →
        countSends (processRegularNotification regAllOk (some prefsW)) ch = 1)
      ∧ (∀ ch : String, (ch, false) ∈ prefsW →
        countSends (processRegularNotification regAllOk (some prefsW)) ch = 0)
      ∧ processRegularNotification regAllOk none =
          sendPreferred regAllOk [("email", true)]
      ∧ (∀ (po : Option (List (String × Bool))) (e : Event),
          e ∈ processRegularNotification regAllOk po →
            isStatusEvent e = false)) :=
  ⟨by decide, regular_path_respects_preferences regAllOk prefsW (by decide)⟩
theorem availableIn_of_sendOkIn {reg : Registry} {ch : String}
    (h : sendOkIn reg ch = true) : availableIn reg ch = true := by
  unfold sendOkIn at h
  unfold availableIn
  rcases hr : reg ch with _ | svc
  · rw [hr] at h
    exact absurd h (by simp)
  · rw [hr] at h
    simp at h
    simp [h.1]
theorem countUpsertsWith_send_cons (c : String) (l : List Event)
    (ch st : String) :
    countUpsertsWith (Event.send c :: l) ch st = countUpsertsWith l ch st := by
  simp [countUpsertsWith, List.countP_cons]

theorem countSends_send_cons (c : String) (l : List Event) (ch : String) :
    countSends (Event.send c :: l) ch =
      countSends l ch + (if c == ch then 1 else 0) := by
  simp [countSends, List.countP_cons]

theorem countUpsertsWith_attemptBroadcast (reg : Registry) (c ch st : String) :
    countUpsertsWith (attemptBroadcast reg c) ch st =
      if ch = c ∧ st = "delivered" ∧ sendOkIn reg c = true then 1 else 0 := by
  cases ha : availableIn reg c
  · have ho := sendOkIn_false_of_unavail ha
    rw [attemptBroadcast_unavail ha]
    simp [countUpsertsWith, ho]
  · cases ho : sendOkIn reg c
    · rw [attemptBroadcast_fail ha ho]
      simp [countUpsertsWith, ho]
    · rw [attemptBroadcast_ok ho]
      by_cases hc : ch = c
      · subst hc
        by_cases hst : st = "delivered"
        · simp_all [countUpsertsWith]
        · simp_all [countUpsertsWith]
          intro hss
          exact hst hss.symm
      · have hc2 : (c == ch) = false := by
          simp
          exact fun h => hc h.symm
        simp [countUpsertsWith, hc, hc2]

theorem failed_upserts_attemptBroadcast (reg : Registry) (c ch : String) :
    countUpsertsWith (attemptBroadcast reg c) ch "failed" = 0 := by
  rw [countUpsertsWith_attemptBroadcast]
  simp

theorem delivered_matches_sends_attemptBroadcast (reg : Registry)
    (c ch : String) :
    countUpsertsWith (attemptBroadcast reg c) ch "delivered" =
      if sendOkIn reg ch = true
      then countSends (attemptBroadcast reg c) ch else 0 := by
  rw [countUpsertsWith_attemptBroadcast, countSends_attemptBroadcast]
  by_cases hc : ch = c
  · subst hc
    cases ho : sendOkIn reg ch
    · simp [ho]
    · simp [ho, availableIn_of_sendOkIn ho]
  · simp [hc]

theorem failed_upserts_tryInOrder (reg : Registry) (ch : String) :
    ∀ l : List String,
      countUpsertsWith (tryInOrder reg l).1 ch "failed" = 0 := by
  intro l
  induction l with
  | nil => simp [tryInOrder, countUpsertsWith]
  | cons c rest ih =>
      cases ha : availableIn reg c
      · rw [tryInOrder_cons_unavail rest ha]
        exact ih
      · cases ho : sendOkIn reg c
        · rw [tryInOrder_cons_fail rest ha ho, countUpsertsWith_send_cons]
          exact ih
        · rw [tryInOrder_cons_ok rest ho]
          simp [countUpsertsWith]

theorem delivered_matches_sends_tryInOrder (reg : Registry) (ch : String) :
    ∀ l : List String,
      countUpsertsWith (tryInOrder reg l).1 ch "delivered" =
        if sendOkIn reg ch = true
        then countSends (tryInOrder reg l).1 ch else 0 := by
  intro l
  induction l with
  | nil => simp [tryInOrder, countUpsertsWith, countSends]
  | cons c rest ih =>
      cases ha : availableIn reg c
      · rw [tryInOrder_cons_unavail rest ha]
        exact ih
      · cases ho : sendOkIn reg c
        · rw [tryInOrder_cons_fail rest ha ho, countUpsertsWith_send_cons,
            countSends_send_cons, ih]
          by_cases hc : c = ch
          · subst hc
            simp [ho]
          · have hc2 : (c == ch) = false := by simp [hc]
            simp [hc2]
        · rw [tryInOrder_cons_ok rest ho]
          by_cases hc : c = ch
          · subst hc
            simp [countUpsertsWith, countSends, ho]
          · have hc2 : (c == ch) = false := by simp [hc]
            simp [countUpsertsWith, countSends, List.countP_cons, hc2]
theorem countUpserts_eq_sends_attemptPreferred (reg : Registry)
    (p : String × Bool) (ch : String) :
    countUpserts (attemptPreferred reg p) ch =
      countSends (attemptPreferred reg p) ch := by
  rcases p with ⟨c, b⟩
  cases b <;> rcases hr : reg c with _ | ⟨_ | _, _ | _⟩ <;>
    simp_all [attemptPreferred, countUpserts, countSends,
      List.countP_cons, List.countP_nil]

theorem delivered_matches_sends_attemptPreferred (reg : Registry)
    (p : String × Bool) (ch : String) :
    countUpsertsWith (attemptPreferred reg p) ch "delivered" =
      if sendOkIn reg ch = true
      then countSends (attemptPreferred reg p) ch else 0 := by
  rcases p with ⟨c, b⟩
  by_cases hc : c = ch
  · subst hc
    cases b
    · simp [attemptPreferred, countUpsertsWith, countSends]
    · rcases hr : reg c with _ | ⟨_ | _, _ | _⟩ <;>
        simp_all [attemptPreferred, countUpsertsWith, countSends, sendOkIn,
          List.countP_cons, List.countP_nil]
  · have hc2 : (c == ch) = false := by simp [hc]
    rcases hr : reg c with _ | ⟨_ | _, _ | _⟩ <;> cases b <;>
      simp_all [attemptPreferred, countUpsertsWith, countSends,
        List.countP_cons, List.countP_nil]

theorem failed_matches_sends_attemptPreferred (reg : Registry)
    (p : String × Bool) (ch : String) :
    countUpsertsWith (attemptPreferred reg p) ch "failed" =
      if sendOkIn reg ch = true
      then 0 else countSends (attemptPreferred reg p) ch := by
  rcases p with ⟨c, b⟩
  by_cases hc : c = ch
  · subst hc
    cases b
    · simp [attemptPreferred, countUpsertsWith, countSends]
    · rcases hr : reg c with _ | ⟨_ | _, _ | _⟩ <;>
        simp_all [attemptPreferred, countUpsertsWith, countSends, sendOkIn,
          List.countP_cons, List.countP_nil]
  · have hc2 : (c == ch) = false := by simp [hc]
    rcases hr : reg c with _ | ⟨_ | _, _ | _⟩ <;> cases b <;>
      simp_all [attemptPreferred, countUpsertsWith, countSends,
        List.countP_cons, List.countP_nil]

theorem countUpserts_eq_sends_sendPreferred (reg : Registry)
    (l : List (String × Bool)) (ch : String) :
    countUpserts (sendPreferred reg l) ch =
      countSends (sendPreferred reg l) ch := by
  induction l with
  | nil => simp [sendPreferred, countUpserts, countSends]
  | cons p rest ih =>
      rw [sendPreferred, countUpserts_append, countSends_append,
        countUpserts_eq_sends_attemptPreferred, ih]

theorem delivered_matches_sends_sendPreferred (reg : Registry)
    (l : List (String × Bool)) (ch : String) :
    countUpsertsWith (sendPreferred reg l) ch "delivered" =
      if sendOkIn reg ch = true
      then countSends (sendPreferred reg l) ch else 0 := by
  induction l with
  | nil => simp [sendPreferred, countUpsertsWith, countSends]
  | cons p rest ih =>
      rw [sendPreferred, countUpsertsWith_append, countSends_append,
        delivered_matches_sends_attemptPreferred, ih]
      by_cases hok : sendOkIn reg ch = true <;> simp [hok]

theorem failed_matches_sends_sendPreferred (reg : Registry)
    (l : List (String × Bool)) (ch : String) :
    countUpsertsWith (sendPreferred reg l) ch "failed" =
      if sendOkIn reg ch = true
      then 0 else countSends (sendPreferred reg l) ch := by
  induction l with
  | nil => simp [sendPreferred, countUpsertsWith, countSends]
  | cons p rest ih =>
      rw [sendPreferred, countUpsertsWith_append, countSends_append,
        failed_matches_sends_attemptPreferred, ih]
      by_cases hok : sendOkIn reg ch = true <;> simp [hok]

/-- C7 amended: on the regular path every attempted send is recorded by
exactly one upsert, `delivered` if the send succeeded and `failed`
otherwise; on the emergency and high-priority paths a `failed` upsert is
never written — a send is recorded (as `delivered`) only when it
succeeded, so a failed or timed-out send on those paths leaves no
DeliveryAttempt record at all. -/
theorem delivery_upsert_policy (reg : Registry) :
    (∀ ch : String,
      countUpsertsWith (processEmergencyNotification reg) ch "failed" = 0
      ∧ countUpsertsWith (processEmergencyNotification reg) ch "delivered" =
          (if sendOkIn reg ch = true
           then countSends (processEmergencyNotification reg) ch else 0))
    ∧ (∀ ch : String,
      countUpsertsWith (processHighPriorityNotification reg) ch "failed" = 0
      ∧ countUpsertsWith (processHighPriorityNotification reg) ch "delivered" =
          (if sendOkIn reg ch = true
           then countSends (processHighPriorityNotification reg) ch else 0))
    ∧ ∀ (po : Option (List (String × Bool))) (ch : String),
      countUpserts (processRegularNotification reg po) ch =
        countSends (processRegularNotification reg po) ch
      ∧ countUpsertsWith (processRegularNotification reg po) ch "delivered" =
          (if sendOkIn reg ch = true
           then countSends (processRegularNotification reg po) ch else 0)
      ∧ countUpsertsWith (processRegularNotification reg po) ch "failed" =
          (if sendOkIn reg ch = true
           then 0 else countSends (processRegularNotification reg po) ch) := by
  refine ⟨?_, ?_, ?_⟩
  · intro ch
    rw [processEmergency_eq]
    constructor
    · rw [countUpsertsWith_append, countUpsertsWith_append,
        countUpsertsWith_append, failed_upserts_attemptBroadcast,
        failed_upserts_attemptBroadcast, failed_upserts_attemptBroadcast]
      simp [countUpsertsWith]
    · rw [countUpsertsWith_append, countUpsertsWith_append,
        countUpsertsWith_append, countSends_append, countSends_append,
        countSends_append, delivered_matches_sends_attemptBroadcast,
        delivered_matches_sends_attemptBroadcast,
        delivered_matches_sends_attemptBroadcast]
      by_cases hok : sendOkIn reg ch = true <;>
        simp [hok, countUpsertsWith, countSends]
  · intro ch
    cases hb : (tryInOrder reg ["push", "sms"]).2
    · have htr : processHighPriorityNotification reg =
          (tryInOrder reg ["push", "sms"]).1 ++ attemptBroadcast reg "email" := by
        rw [processHigh_eq, hb]
        simp
      rw [htr]
      constructor
      · rw [countUpsertsWith_append, failed_upserts_tryInOrder,
          failed_upserts_attemptBroadcast]
      · rw [countUpsertsWith_append, countSends_append,
          delivered_matches_sends_tryInOrder,
          delivered_matches_sends_attemptBroadcast]
        by_cases hok : sendOkIn reg ch = true <;> simp [hok]
    · have htr : processHighPriorityNotification reg =
          (tryInOrder reg ["push", "sms"]).1 := by
        rw [processHigh_eq, hb]
        simp
      rw [htr]
      constructor
      · rw [failed_upserts_tryInOrder]
      · rw [delivered_matches_sends_tryInOrder]
  · intro po ch
    have hr : processRegularNotification reg po =
        sendPreferred reg (po.getD [("email", true)]) := rfl
    rw [hr]
    exact ⟨countUpserts_eq_sends_sendPreferred reg _ ch,
      delivered_matches_sends_sendPreferred reg _ ch,
      failed_matches_sends_sendPreferred reg _ ch⟩

/-- Registry for the C7 counterexample: push is registered and
available but its `Send` fails; sms and email are not registered. -/
def regC7 : Registry := fun ch =>
  if ch = "push" then some ⟨true, false⟩ else none

/-- C7 counterexample: under that registry the emergency path attempts
push once, yet records no DeliveryAttempt upsert at all for it — the
failed send is invisible to the Retry sweep. -/
theorem emergency_failed_send_unrecorded_cex :
    countSends (processEmergencyNotification regC7) "push" = 1
    ∧ countUpserts (processEmergencyNotification regC7) "push" = 0 :=
  ⟨by decide, by decide⟩
theorem no_status_dispatchMatch (reg : Registry)
    (prefs : Option (List (String × Bool))) (n : Notification) :
    ∀ e ∈ (match n.priority with
           | "emergency" => processEmergencyNotification reg
           | "high" => processHighPriorityNotification reg
           | _ => processRegularNotification reg prefs),
      isStatusEvent e = false := by
  intro e he
  split at he
  · exact no_status_broadcastAll _ he
  · exact no_status_processHigh he
  · exact no_status_sendPreferred he

/-- C1 amended: no final status is ever written.  The ingest path
leaves the notification's status at the stored `pending` (or writes
nothing at all when validation rejects the message); the
scheduler-promotion path sets the status to `processing` after the
channel attempts; `delivered`, `partially_delivered` and `failed` are
never written anywhere. -/
theorem notification_status_never_final (reg : Registry)
    (prefs : Option (List (String × Bool))) (n : Notification) :
    (finalStatus (processNotificationMessage reg prefs n) = none
      ∨ finalStatus (processNotificationMessage reg prefs n) = some "pending")
    ∧ finalStatus (processScheduledRow reg prefs n) = some "processing" := by
  constructor
  · cases hv : validateNotification n with
    | some err =>
        left
        simp [processNotificationMessage, hv, finalStatus]
    | none =>
        right
        have htr : processNotificationMessage reg prefs n =
            Event.store "pending" ::
              (match n.priority with
               | "emergency" => processEmergencyNotification reg
               | "high" => processHighPriorityNotification reg
               | _ => processRegularNotification reg prefs) := by
          simp [processNotificationMessage, hv]
        rw [htr, finalStatus, List.foldl_cons]
        exact foldl_statusStep_const _ _ (no_status_dispatchMatch reg prefs n)
  · have htr : processScheduledRow reg prefs n =
        (match n.priority with
         | "emergency" => processEmergencyNotification reg
         | "high" => processHighPriorityNotification reg
         | _ => processRegularNotification reg prefs) ++
          [Event.setStatus "processing"] := rfl
    rw [htr, finalStatus, List.foldl_append]
    rfl

/-- Concrete emergency notification used by several counterexamples. -/
def nEmergency : Notification :=
  ⟨"n1", "u1", "alert", "T", "M", "emergency", [], none⟩

/-- C1 counterexample: with all channels available and succeeding, the
ingest path delivers via push (a `delivered` upsert exists), yet the
notification's own status is still `pending` — never `delivered`,
`partially_delivered` or `failed`. -/
theorem final_status_stays_pending_cex :
    finalStatus (processNotificationMessage regAllOk none nEmergency) =
      some "pending"
    ∧ countUpsertsWith (processNotificationMessage regAllOk none nEmergency)
        "push" "delivered" = 1 :=
  ⟨by decide, by decide⟩

/-- Concrete notification scheduled for the future (`scheduled_at`
= 1000, think "now + 10 minutes"). -/
def nScheduled : Notification :=
  ⟨"n2", "u1", "alert", "T", "M", "high", [], some 1000⟩

/-- C2 (code bug): the ingest path never consults `scheduled_at` — the
trace is identical for every value of the field — and it attempts a
channel send immediately even for `nScheduled`, whose `scheduled_at`
lies in the future. -/
theorem ingest_ignores_scheduled_time :
    (∀ (t : Option Int) (reg : Registry)
        (prefs : Option (List (String × Bool))) (n : Notification),
      processNotificationMessage reg prefs { n with scheduledAt := t } =
        processNotificationMessage reg prefs n)
    ∧ countSends (processNotificationMessage regAllOk none nScheduled)
        "push" = 1
    ∧ nScheduled.scheduledAt = some 1000 :=
  ⟨fun _ _ _ _ => rfl, by decide, rfl⟩

/-- Concrete notification with the unknown priority `"urgent"` and all
required fields non-empty. -/
def nUnknownPriority : Notification :=
  ⟨"n3", "u1", "alert", "T", "M", "urgent", [], none⟩

/-- C3 counterexample: a notification with unknown priority `"urgent"`
passes validation (no error), is persisted, and is routed through the
regular-preferences path, producing a real email send. -/
theorem unknown_priority_accepted_cex :
    validateNotification nUnknownPriority = none
    ∧ processNotificationMessage regAllOk (some [("email", true)])
        nUnknownPriority =
        Event.store "pending" ::
          processRegularNotification regAllOk (some [("email", true)])
    ∧ countSends (processNotificationMessage regAllOk (some [("email", true)])
        nUnknownPriority) "email" = 1 :=
  ⟨rfl, rfl, by decide⟩

/-- C3 amended: validation only checks that user ID, title, message and
type are non-empty — the priority field is not validated — and every
priority other than `emergency` and `high` (unknown values included) is
routed through the regular-preferences path by the switch default. -/
theorem validation_and_default_routing (n : Notification) (reg : Registry)
    (prefs : Option (List (String × Bool))) :
    (validateNotification n = none ↔
      n.userId ≠ "" ∧ n.title ≠ "" ∧ n.message ≠ "" ∧ n.type ≠ "")
    ∧ (validateNotification n = none → n.priority ≠ "emergency" →
        n.priority ≠ "high" →
        processNotificationMessage reg prefs n =
          Event.store "pending" :: processRegularNotification reg prefs) := by
  constructor
  · unfold validateNotification
    split_ifs <;> simp_all
  · intro hv h1 h2
    have htr : processNotificationMessage reg prefs n =
        Event.store "pending" ::
          (match n.priority with
           | "emergency" => processEmergencyNotification reg
           | "high" => processHighPriorityNotification reg
           | _ => processRegularNotification reg prefs) := by
      simp [processNotificationMessage, hv]
    rw [htr]
    congr 1
    split
    next heq => exact absurd heq h1
    next heq => exact absurd heq h2
    next => rfl

theorem validation_and_default_routing_witness :
    ((validateNotification nUnknownPriority = none ↔
      nUnknownPriority.userId ≠ "" ∧ nUnknownPriority.title ≠ "" ∧
        nUnknownPriority.message ≠ "" ∧ nUnknownPriority.type ≠ "")
    ∧ (validateNotification nUnknownPriority = none →
        nUnknownPriority.priority ≠ "emergency" →
        nUnknownPriority.priority ≠ "high" →
        processNotificationMessage regAllOk (some [("email", true)])
            nUnknownPriority =
          Event.store "pending" ::
            processRegularNotification regAllOk (some [("email", true)]))) :=
  validation_and_default_routing nUnknownPriority regAllOk
    (some [("email", true)])

/-- C10: no routing path reads the notification's `channels` hint
field — two ingested notifications differing only in `channels`
produce identical processing traces (same sends, in the same order,
same upserts). -/
theorem channels_hint_has_no_effect (reg : Registry)
    (prefs : Option (List (String × Bool))) (n : Notification)
    (c : List String) :
    processNotificationMessage reg prefs { n with channels := c } =
      processNotificationMessage reg prefs n := rfl
/-- A row of the `notification_delivery_status` table. -/
structure AttemptRow where
  notificationId : String
  channel : String
  status : String
  attemptedAt : Int
deriving DecidableEq

/-- `updateDeliveryStatus`: the SQL upsert

`INSERT INTO notification_delivery_status
   (notification_id, channel, status, attempted_at)
 VALUES ($1, $2, $3, $4)
 ON CONFLICT (notification_id, channel) DO UPDATE SET status = $2,
 attempted_at = $4`

with positional parameters `$1 = notificationID`, `$2 = channel`,
`$3 = status`, `$4 = now`.  The conflict branch therefore writes the
CHANNEL (`$2`) into the status column, not the status (`$3`). -/
def updateDeliveryStatus (table : List AttemptRow)
    (notificationID channel status : String) (now : Int) :
    List AttemptRow :=
  if table.any fun r =>
      r.notificationId == notificationID && r.channel == channel then
    table.map fun r =>
      if r.notificationId == notificationID && r.channel == channel then
        { r with status := channel, attemptedAt := now }
      else r
  else
    table ++ [⟨notificationID, channel, status, now⟩]

/-- C8 (code bug): upserting `(n1, email, delivered)` twice leaves
exactly one current record carrying the second call's timestamp, but
its status column holds the channel name `"email"`, not the second
call's status `"delivered"` — the `DO UPDATE` branch uses `$2` where
`$3` was intended. -/
theorem upsert_conflict_writes_channel_into_status :
    updateDeliveryStatus
        (updateDeliveryStatus [] "n1" "email" "delivered" 1)
        "n1" "email" "delivered" 2 =
      [⟨"n1", "email", "email", 2⟩]
    ∧ "email" ≠ "delivered" :=
  ⟨by decide, by decide⟩

/-- A row of the `notifications` table as read by the retry query. -/
structure NotifRow where
  notif : Notification
  status : String
  createdAt : Int
deriving DecidableEq

/-- Rows of the SQL join `notifications n JOIN
notification_delivery_status nds ON n.id = nds.notification_id` for a
single notification row. -/
def pairAttempts (n : NotifRow) :
    List AttemptRow → List (NotifRow × AttemptRow)
  | [] => []
  | a :: rest =>
      if n.notif.id == a.notificationId then
        (n, a) :: pairAttempts n rest
      else pairAttempts n rest

/-- The full join. -/
def joinRows : List NotifRow → List AttemptRow → List (NotifRow × AttemptRow)
  | [], _ => []
  | n :: ns, atts => pairAttempts n atts ++ joinRows ns atts

/-- The WHERE clause of `retryFailedNotifications`:
`nds.status = 'failed' AND nds.attempted_at < NOW() - INTERVAL '5
minutes' AND n.created_at > NOW() - INTERVAL '24 hours'`. -/
def retryWhere (now : Int) (p : NotifRow × AttemptRow) : Bool :=
  p.2.status == "failed" && decide (p.2.attemptedAt < now - 300) &&
    decide (p.1.createdAt > now - 86400)

def retryCandidates (notifs : List NotifRow) (atts : List AttemptRow)
    (now : Int) : List (NotifRow × AttemptRow) :=
  (joinRows notifs atts).filter (retryWhere now)

/-- `ORDER BY n.priority DESC, n.created_at ASC`; the priority column
is a string, so the SQL sorts it lexicographically descending. -/
def retryBefore (x y : NotifRow × AttemptRow) : Bool :=
  decide (y.1.notif.priority < x.1.notif.priority) ||
    (x.1.notif.priority == y.1.notif.priority &&
      decide (x.1.createdAt ≤ y.1.createdAt))

def insertSorted {α : Type} (le : α → α → Bool) (x : α) :
    List α → List α
  | [] => [x]
  | y :: ys => if le x y then x :: y :: ys else y :: insertSorted le x ys

def sortByBool {α : Type} (le : α → α → Bool) : List α → List α
  | [] => []
  | x :: xs => insertSorted le x (sortByBool le xs)

/-- The batch actually processed: ordered, `LIMIT 50`. -/
def retrySelected (notifs : List NotifRow) (atts : List AttemptRow)
    (now : Int) : List (NotifRow × AttemptRow) :=
  (sortByBool retryBefore (retryCandidates notifs atts now)).take 50

/-- Body of the retry loop for one selected row: re-invoke only the
failed channel (if registered and available); upsert `delivered` on
success; on error only log. -/
def retryRow (reg : Registry) (p : NotifRow × AttemptRow) : List Event :=
  match reg p.2.channel with
  | some svc =>
      if svc.isAvailable then
        Event.send p.2.channel ::
          (if svc.sendOk then [Event.upsert p.2.channel "delivered"] else [])
      else []
  | none => []

def runRetries (reg : Registry) : List (NotifRow × AttemptRow) → List Event
  | [] => []
  | p :: rest => retryRow reg p ++ runRetries reg rest

/-- `retryFailedNotifications`: one sweep of the retry loop. -/
def retryFailedNotifications (reg : Registry) (notifs : List NotifRow)
    (atts : List AttemptRow) (now : Int) : List Event :=
  runRetries reg (retrySelected notifs atts now)

theorem mem_insertSorted {α : Type} (le : α → α → Bool) (a x : α) :
    ∀ l : List α, x ∈ insertSorted le a l ↔ x = a ∨ x ∈ l := by
  intro l
  induction l with
  | nil => simp [insertSorted]
  | cons y ys ih =>
      rw [insertSorted]
      by_cases h : le a y = true
      · rw [if_pos h]
        simp [List.mem_cons]
      · rw [if_neg h]
        simp [List.mem_cons, ih]
        tauto

theorem length_insertSorted {α : Type} (le : α → α → Bool) (a : α) :
    ∀ l : List α, (insertSorted le a l).length = l.length + 1 := by
  intro l
  induction l with
  | nil => rfl
  | cons y ys ih =>
      rw [insertSorted]
      by_cases h : le a y = true
      · rw [if_pos h]
        rfl
      · rw [if_neg h]
        simp [ih]

theorem mem_sortByBool {α : Type} (le : α → α → Bool) (x : α) :
    ∀ l : List α, x ∈ sortByBool le l ↔ x ∈ l := by
  intro l
  induction l with
  | nil => simp [sortByBool]
  | cons y ys ih =>
      rw [sortByBool, mem_insertSorted]
      simp [List.mem_cons, ih]

theorem length_sortByBool {α : Type} (le : α → α → Bool) :
    ∀ l : List α, (sortByBool le l).length = l.length := by
  intro l
  induction l with
  | nil => rfl
  | cons y ys ih =>
      rw [sortByBool, length_insertSorted, ih]
      rfl

theorem pairAttempts_mem (n : NotifRow) :
    ∀ (atts : List AttemptRow) (p : NotifRow × AttemptRow),
      p ∈ pairAttempts n atts →
        p.1 = n ∧ (n.notif.id == p.2.notificationId) = true := by
  intro atts
  induction atts with
  | nil =>
      intro p hp
      simp [pairAttempts] at hp
  | cons a rest ih =>
      intro p hp
      rw [pairAttempts] at hp
      by_cases h : (n.notif.id == a.notificationId) = true
      · rw [if_pos h] at hp
        rcases List.mem_cons.mp hp with h1 | h1
        · subst h1
          exact ⟨rfl, h⟩
        · exact ih p h1
      · rw [if_neg h] at hp
        exact ih p hp

theorem joinRows_id_match :
    ∀ (notifs : List NotifRow) (atts : List AttemptRow)
      (p : NotifRow × AttemptRow),
      p ∈ joinRows notifs atts →
        (p.1.notif.id == p.2.notificationId) = true := by
  intro notifs
  induction notifs with
  | nil =>
      intro atts p hp
      simp [joinRows] at hp
  | cons n ns ih =>
      intro atts p hp
      rw [joinRows] at hp
      rcases List.mem_append.mp hp with h1 | h1
      · have := pairAttempts_mem n atts p h1
        rw [this.1]
        exact this.2
      · exact ih atts p h1

theorem retrySelected_eq (notifs : List NotifRow) (atts : List AttemptRow)
    (now : Int) :
    retrySelected notifs atts now =
      (sortByBool retryBefore (retryCandidates notifs atts now)).take 50 :=
  rfl
/-- C9 amended: every selected row satisfies the WHERE clause (failed
status, attempted before the 5-minute cooldown, parent notification
younger than 24 hours, join key matching); the batch is bounded by 50
and — whenever everything eligible fits in the batch — contains exactly
the eligible rows; for each selected row only that row's failed channel
is re-invoked (at most once, and exactly once when it is registered and
available), with a `delivered` upsert exactly when the resend succeeds
and no upsert at all otherwise (a failed retry writes nothing). -/
theorem retry_sweep_selection_and_action (reg : Registry)
    (notifs : List NotifRow) (atts : List AttemptRow) (now : Int) :
    (∀ p ∈ retrySelected notifs atts now,
      p.2.status = "failed" ∧ p.2.attemptedAt < now - 300 ∧
        p.1.createdAt > now - 86400 ∧
        (p.1.notif.id == p.2.notificationId) = true)
    ∧ (retrySelected notifs atts now).length ≤ 50
    ∧ ((retryCandidates notifs atts now).length ≤ 50 →
        ∀ p : NotifRow × AttemptRow,
          p ∈ retrySelected notifs atts now ↔
            p ∈ retryCandidates notifs atts now)
    ∧ ∀ (p : NotifRow × AttemptRow) (ch : String),
        (ch ≠ p.2.channel → countSends (retryRow reg p) ch = 0)
        ∧ countSends (retryRow reg p) p.2.channel =
            (if availableIn reg p.2.channel = true then 1 else 0)
        ∧ countUpsertsWith (retryRow reg p) ch "failed" = 0
        ∧ countUpsertsWith (retryRow reg p) ch "delivered" =
            (if ch = p.2.channel ∧ sendOkIn reg p.2.channel = true
             then 1 else 0) := by
  have hrr : ∀ p : NotifRow × AttemptRow,
      retryRow reg p = attemptBroadcast reg p.2.channel := fun p => rfl
  refine ⟨?_, ?_, ?_, ?_⟩
  · intro p hp
    have hp1 : p ∈ sortByBool retryBefore (retryCandidates notifs atts now) :=
      List.take_subset _ _ (retrySelected_eq notifs atts now ▸ hp)
    have hp2 : p ∈ retryCandidates notifs atts now :=
      (mem_sortByBool _ p _).mp hp1
    have hp3 := List.mem_filter.mp hp2
    have hw := hp3.2
    simp only [retryWhere, Bool.and_eq_true, beq_iff_eq,
      decide_eq_true_eq] at hw
    exact ⟨hw.1.1, hw.1.2, hw.2, joinRows_id_match _ _ _ hp3.1⟩
  · rw [retrySelected_eq]
    exact List.length_take_le _ _
  · intro hlen p
    have hfull : (sortByBool retryBefore
          (retryCandidates notifs atts now)).take 50 =
        sortByBool retryBefore (retryCandidates notifs atts now) :=
      List.take_of_length_le (by rw [length_sortByBool]; exact hlen)
    rw [retrySelected_eq, hfull, mem_sortByBool]
  · intro p ch
    refine ⟨?_, ?_, ?_, ?_⟩
    · intro hne
      rw [hrr, countSends_attemptBroadcast]
      simp [hne]
    · rw [hrr, countSends_attemptBroadcast]
      simp
    · rw [hrr, failed_upserts_attemptBroadcast]
    · rw [hrr, countUpsertsWith_attemptBroadcast]
      simp

/-- Concrete retry scenario: one failed sms attempt, old enough for the
cooldown, on a notification young enough for the eligibility window. -/
def rowN : NotifRow :=
  ⟨⟨"n9", "u1", "alert", "T", "M", "high", [], none⟩, "pending", 10⟩

def rowA : AttemptRow := ⟨"n9", "sms", "failed", 20⟩

theorem retry_sweep_selection_and_action_witness :
    (rowN, rowA) ∈ retrySelected [rowN] [rowA] 86400
    ∧ ((∀ p ∈ retrySelected [rowN] [rowA] 86400,
        p.2.status = "failed" ∧ p.2.attemptedAt < 86400 - 300 ∧
          p.1.createdAt > 86400 - 86400 ∧
          (p.1.notif.id == p.2.notificationId) = true)
      ∧ (retrySelected [rowN] [rowA] 86400).length ≤ 50
      ∧ ((retryCandidates [rowN] [rowA] 86400).length ≤ 50 →
          ∀ p : NotifRow × AttemptRow,
            p ∈ retrySelected [rowN] [rowA] 86400 ↔
              p ∈ retryCandidates [rowN] [rowA] 86400)
      ∧ ∀ (p : NotifRow × AttemptRow) (ch : String),
          (ch ≠ p.2.channel → countSends (retryRow regAllOk p) ch = 0)
          ∧ countSends (retryRow regAllOk p) p.2.channel =
              (if availableIn regAllOk p.2.channel = true then 1 else 0)
          ∧ countUpsertsWith (retryRow regAllOk p) ch "failed" = 0
          ∧ countUpsertsWith (retryRow regAllOk p) ch "delivered" =
              (if ch = p.2.channel ∧ sendOkIn regAllOk p.2.channel = true
               then 1 else 0)) :=
  ⟨by decide, retry_sweep_selection_and_action regAllOk [rowN] [rowA] 86400⟩

/-- Registry for the C9 counterexample: sms is registered and available
but its resend fails. -/
def regC9 : Registry := fun ch =>
  if ch = "sms" then some ⟨true, false⟩ else none

/-- C9 counterexample: the sweep selects the eligible failed sms
attempt and re-invokes sms, but since the resend fails it performs no
upsert at all — the claimed "upserts the new outcome" does not happen
on a failed retry. -/
theorem retry_failure_not_upserted_cex :
    retryFailedNotifications regC9 [rowN] [rowA] 86400 = [Event.send "sms"]
    ∧ countUpserts (retryFailedNotifications regC9 [rowN] [rowA] 86400)
        "sms" = 0 :=
  ⟨by decide, by decide⟩

end UrbanZen
